import Mathlib

/-
Verification of the approval state machine and vote-aggregation core of the
hagrid access-request system (src/functions/approval-manager/index.py).

The Python source is shallowly embedded: DynamoDB tables become association
lists keyed by id, each Lambda entry point becomes a pure state-transformer
returning the new table state together with the list of outbound calls it
made, and the external collaborators (Slack identity lookups, DM delivery)
become oracle functions supplied as parameters.  Python integers are `Int`,
Python strings are `String` (a wrapper around `List Char`), absent dictionary
keys are `Option`.
-/

namespace Hagrid

/-- Association-list lookup keyed by string ids, modelling a DynamoDB
`get_item` on the table's primary key. -/
def tblLookup {α : Type} (db : List (String × α)) (k : String) : Option α :=
  match db with
  | [] => none
  | (k0, v) :: rest => if k0 = k then some v else tblLookup rest k

/-- Association-list write, modelling a DynamoDB `put_item` / `update_item`:
replaces the record when the key exists, inserts it otherwise. -/
def tblPut {α : Type} (db : List (String × α)) (k : String) (v : α) :
    List (String × α) :=
  match db with
  | [] => [(k, v)]
  | (k0, v0) :: rest =>
      if k0 = k then (k0, v) :: rest else (k0, v0) :: tblPut rest k v

/-- Record of the `hagrid-access-requests` table, as built by
`create_access_request` (index.py lines 226-254).  Timestamps are an abstract
`Nat` clock. -/
structure AccessRequest where
  request_id : String
  user_id : String
  user_email : String
  app : String
  role : String
  group_name : Option String
  group_id : Option String
  status : String
  approval_type : String
  required_approvals : Int
  approver_emails : List String
  approvals_received : List String
  denials_received : List String
  created_at : Nat
  updated_at : Nat
  deriving DecidableEq, Repr

/-- Record of the `hagrid-approval-messages` table, as built by
`create_approval_message` (index.py lines 257-277).  `handled_by` is absent
until the message is clicked. -/
structure ApprovalMessage where
  approval_message_id : String
  request_id : String
  approver_email : String
  approver_slack_id : String
  message_ts : String
  status : String
  handled_by : Option String
  created_at : Nat
  deriving DecidableEq, Repr

/-- Combined persistent state: the two DynamoDB tables. -/
structure SysState where
  requests : List (String × AccessRequest)
  messages : List (String × ApprovalMessage)
  deriving DecidableEq, Repr

/-- Outbound calls made by the approval manager, one constructor per kind of
call site in the source: `slackMessage` is `send_slack_message` (a plain text
DM), `postMessage` is the direct `chat.postMessage` call of line 556,
`updatePrompt` is `update_approval_message` (rewriting the approver's prompt
via its `response_url`), `approvalDM` is `send_approval_dm` (the prompt with
approve/deny buttons carrying `button_value`), and `invokeProvisioner` is the
`lambda_client.invoke` of the `hagrid-okta-provisioner` function. -/
inductive Effect where
  | slackMessage (channel : String) (text : String)
  | postMessage (channel : String) (text : String)
  | updatePrompt (response_url : String) (text : String)
  | approvalDM (approver_slack_id : String) (button_value : String)
  | invokeProvisioner (request_id : String) (user_email : String)
      (group_id : Option String) (channel : String)
  deriving DecidableEq, Repr

/-- Builds the fresh request record persisted by `create_access_request`
(index.py lines 226-254): status `pending`, empty vote lists, both timestamps
set to the current clock. -/
def create_access_request (db : List (String × AccessRequest)) (now : Nat)
    (request_id user_id user_email app_name role_name : String)
    (group_name group_id : Option String) (approval_type : String)
    (required_approvals : Int) (approver_emails : List String) :
    List (String × AccessRequest) :=
  tblPut db request_id
    { request_id := request_id
      user_id := user_id
      user_email := user_email
      app := app_name
      role := role_name
      group_name := group_name
      group_id := group_id
      status := ("pending")
      approval_type := approval_type
      required_approvals := required_approvals
      approver_emails := approver_emails
      approvals_received := []
      denials_received := []
      created_at := now
      updated_at := now }

/-- Builds the tracking record persisted by `create_approval_message`
(index.py lines 257-277). -/
def create_approval_message (db : List (String × ApprovalMessage)) (now : Nat)
    (approval_message_id request_id approver_email approver_slack_id
      message_ts : String) : List (String × ApprovalMessage) :=
  tblPut db approval_message_id
    { approval_message_id := approval_message_id
      request_id := request_id
      approver_email := approver_email
      approver_slack_id := approver_slack_id
      message_ts := message_ts
      status := ("pending")
      handled_by := none
      created_at := now }

/-- Reads a request record, modelling `get_access_request`
(index.py lines 280-287). -/
def get_access_request (db : List (String × AccessRequest))
    (request_id : String) : Option AccessRequest :=
  tblLookup db request_id

/-- The in-memory item rewrite performed by `update_request_status`
(index.py lines 299-315) on the record it has just read: overwrite `status`
and `updated_at` unconditionally, and when an action and a (non-empty)
approver email are supplied, append the email to the matching vote list
unless it is already present.  The subsequent `update_item` call writes
exactly these attributes back with no condition expression. -/
def apply_vote_update (request : AccessRequest) (now : Nat) (status : String)
    (approver_email : Option String) (action : Option String) :
    AccessRequest :=
  let base := { request with status := status, updated_at := now }
  match action, approver_email with
  | some a, some email =>
      if a = ("approve") then
        let approvals := request.approvals_received
        let approvals :=
          if email ∈ approvals then approvals else approvals ++ [email]
        { base with approvals_received := approvals }
      else if a = ("deny") then
        let denials := request.denials_received
        let denials :=
          if email ∈ denials then denials else denials ++ [email]
        { base with denials_received := denials }
      else base
  | _, _ => base

/-- The full `update_request_status` (index.py lines 290-326): an
unconditional read-modify-write.  It reads the record with
`get_access_request` (line 295), rewrites it in memory, and writes it back
with a plain `update_item` carrying no `ConditionExpression` and no version
check; the boolean mirrors the function's `True`/`False` return.  The read
and the write are separate DynamoDB calls, so two concurrent executions may
both read before either writes (see the lost-update theorem below). -/
def update_request_status (db : List (String × AccessRequest)) (now : Nat)
    (request_id status : String) (approver_email : Option String)
    (action : Option String) : List (String × AccessRequest) × Bool :=
  match get_access_request db request_id with
  | none => (db, false)
  | some request =>
      (tblPut db request_id
        (apply_vote_update request now status approver_email action), true)

/-- Threshold evaluation, `check_approval_threshold`
(index.py lines 341-364): denials first, then the `NONE` auto-approve, then
the count comparison, else `pending`; a missing record also yields
`pending`. -/
def check_approval_threshold (db : List (String × AccessRequest))
    (request_id : String) : String :=
  match get_access_request db request_id with
  | none => ("pending")
  | some request =>
      if request.denials_received ≠ [] then ("denied")
      else if request.approval_type = ("NONE") then ("approved")
      else if (request.approvals_received.length : Int) ≥
          request.required_approvals then ("approved")
      else ("pending")

/-- Approval block of a catalog role entry (`role_config['approval']`); each
field is `Option` to model a key that the catalog JSON may omit, with the
`.get` defaults applied at the use sites in `process_new_request`. -/
structure ApprovalCfg where
  type? : Option String
  approver_emails? : Option (List String)
  threshold? : Option Int
  logic? : Option String
  deriving DecidableEq, Repr

/-- A role entry of the S3 catalog JSON. -/
structure RoleConfig where
  role_name : String
  description? : Option String
  group_name : Option String
  group_id : Option String
  approval? : Option ApprovalCfg
  deriving DecidableEq, Repr

/-- An application entry of the S3 catalog JSON. -/
structure AppEntry where
  app_name : String
  roles : List RoleConfig
  deriving DecidableEq, Repr

/-- The S3 catalog JSON: a list of applications, each with roles. -/
structure Catalog where
  applications : List AppEntry
  deriving DecidableEq, Repr

/-- Python's `str.lower()` applied to the character list of a string (ASCII
case folding, which is what the catalog's names exercise). -/
def strLower (s : String) : String :=
  ⟨s.data.map Char.toLower⟩

/-- Case-insensitive catalog lookup, `get_role_config`
(index.py lines 91-101): scan the applications in order and, inside each
application whose name matches, scan the roles in order; the loop falls
through to later applications when a matching application lacks the role. -/
def get_role_config (catalog : Catalog) (app_name role_name : String) :
    Option RoleConfig :=
  catalog.applications.findSome? fun app =>
    if strLower app.app_name = strLower app_name then
      app.roles.find? fun r => strLower r.role_name = strLower role_name
    else none

/-- Required-approval computation of `process_new_request`
(index.py lines 386-409), given the already-defaulted approval fields:
`NONE` needs 0, `MANAGER` needs 1, `BOTH` and `MANUAL`/`ACCOUNT_ID` use the
designated-approver rule (logic `ALL`: the approver-list length when the list
is non-empty, else 1; otherwise: the threshold when positive, else 1), and
any other type falls back to the threshold-when-positive-else-1 rule. -/
def required_approvals_calc (approval_type logic : String) (threshold : Int)
    (approver_emails : List String) : Int :=
  if approval_type = ("NONE") then 0
  else if approval_type = ("MANAGER") then 1
  else if approval_type = ("BOTH") then
    if logic = ("ALL") then
      if approver_emails ≠ [] then (approver_emails.length : Int) else 1
    else if threshold > 0 then threshold else 1
  else if approval_type = ("MANUAL") ∨ approval_type = ("ACCOUNT_ID") then
    if logic = ("ALL") then
      if approver_emails ≠ [] then (approver_emails.length : Int) else 1
    else if threshold > 0 then threshold else 1
  else if threshold > 0 then threshold else 1

/-- External collaborators of the approval manager, supplied as oracles:
`email_of` is the Slack `users.info` lookup of `get_requester_email`,
`slack_id_of` is the `users.lookupByEmail` lookup of `get_approver_slack_id`,
and `dm_result` is the message timestamp `send_approval_dm` obtains from
`chat.postMessage` (`none` when delivery fails). -/
structure Env where
  catalog : Catalog
  email_of : String → Option String
  slack_id_of : String → Option String
  dm_result : String → String → Option String

/-- Python's `str.split(':')` on the character list of a string: cut at every
colon, keeping empty chunks. -/
def pySplitColon : List Char → List (List Char)
  | [] => [[]]
  | c :: rest =>
      if c = ':' then [] :: pySplitColon rest
      else
        match pySplitColon rest with
        | [] => [[c]]
        | chunk :: chunks => (c :: chunk) :: chunks

/-- The combined button token built by `send_approval_requests`
(index.py line 467): `f"{request_id}:{approval_message_id}"`. -/
def encodeCombined (request_id approval_message_id : String) : String :=
  request_id ++ (":") ++ approval_message_id

/-- The decoding step of `handle_approval_response` (index.py line 507):
`request_id, approval_msg_id = combined_value.split(':')`, which succeeds
exactly when the split yields two parts and raises `ValueError` (modelled as
`none`) otherwise. -/
def decodeCombined (combined_value : String) : Option (String × String) :=
  match pySplitColon combined_value.data with
  | [a, b] => some (⟨a⟩, ⟨b⟩)
  | _ => none

/-- DynamoDB `update_item` of index.py lines 515-520: set the message's
status to `clicked` and record who clicked; like `update_item`, it creates a
skeleton item (unknown attributes defaulted) when the key is absent. -/
def markMessageClicked (db : List (String × ApprovalMessage))
    (approval_msg_id user_id : String) : List (String × ApprovalMessage) :=
  match tblLookup db approval_msg_id with
  | some m =>
      tblPut db approval_msg_id
        { m with status := ("clicked"), handled_by := some user_id }
  | none =>
      tblPut db approval_msg_id
        { approval_message_id := approval_msg_id
          request_id := ("")
          approver_email := ("")
          approver_slack_id := ("")
          message_ts := ("")
          status := ("clicked")
          handled_by := some user_id
          created_at := 0 }

/-- Dispatch loop of `send_approval_requests` (index.py lines 453-494),
recursing over the approver emails while consuming one pre-generated message
id per approver whose Slack id resolves: look up the approver's Slack id
(skip on failure), send the DM carrying the combined token (skip the
tracking record when delivery returns no timestamp), and count the sent
DMs.  Returns the grown messages table, the outbound calls, and the count. -/
def send_approval_loop (env : Env) (now : Nat)
    (request_id requester_email app_name role_name description : String) :
    List String → List String → List (String × ApprovalMessage) →
    List (String × ApprovalMessage) × List Effect × Nat
  | [], _, msgs => (msgs, [], 0)
  | approver_email :: rest, msg_ids, msgs =>
      match env.slack_id_of approver_email with
      | none => send_approval_loop env now request_id requester_email
          app_name role_name description rest msg_ids msgs
      | some approver_slack_id =>
          match msg_ids with
          | [] => (msgs, [], 0)
          | approval_message_id :: more_ids =>
              let combined_value := encodeCombined request_id
                approval_message_id
              let dmEff := Effect.approvalDM approver_slack_id combined_value
              match env.dm_result approver_slack_id combined_value with
              | none =>
                  let (msgs2, effs, n) := send_approval_loop env now
                    request_id requester_email app_name role_name description
                    rest more_ids msgs
                  (msgs2, dmEff :: effs, n)
              | some message_ts =>
                  let msgs1 := create_approval_message msgs now
                    approval_message_id request_id approver_email
                    approver_slack_id message_ts
                  let (msgs2, effs, n) := send_approval_loop env now
                    request_id requester_email app_name role_name description
                    rest more_ids msgs1
                  (msgs2, dmEff :: effs, n + 1)

/-- Whole of `send_approval_requests` (index.py lines 453-494): run the
dispatch loop, then tell the requester either how many approvers were
reached or that none could be reached. -/
def send_approval_requests (env : Env) (now : Nat)
    (request_id requester_email app_name role_name : String)
    (role_config : RoleConfig) (approver_emails : List String)
    (channel : String) (msg_ids : List String)
    (msgs : List (String × ApprovalMessage)) :
    List (String × ApprovalMessage) × List Effect :=
  let description := role_config.description?.getD ("")
  let (msgs1, effs, sent_count) := send_approval_loop env now request_id
    requester_email app_name role_name description approver_emails msg_ids
    msgs
  if sent_count > 0 then
    (msgs1, effs ++ [Effect.slackMessage channel
      ("I\x27ve sent your request to " ++ toString sent_count ++
        " approver(s). I\x27ll let you know when they respond.")])
  else
    (msgs1, effs ++ [Effect.slackMessage channel
      ("Sorry, I couldn\x27t reach any approvers. Please contact IT directly.")])

/-- New-request path, `process_new_request` (index.py lines 367-450): resolve
the role from the catalog (telling the requester when it is unknown), apply
the `.get` defaults to the approval block, compute the required approvals,
resolve the requester's email (telling the requester on failure), persist
the request record, then either auto-approve and invoke the provisioner
(type `NONE`) or dispatch the approval prompts.  `fresh_request_id` and
`msg_ids` stand for the `uuid.uuid4()` calls.  Returns the new state, the
outbound calls, and the function's return value (`request_id` or `None`). -/
def process_new_request (env : Env) (st : SysState) (now : Nat)
    (fresh_request_id : String) (msg_ids : List String)
    (user_id channel app_name role_name : String) :
    SysState × List Effect × Option String :=
  match get_role_config env.catalog app_name role_name with
  | none =>
      (st, [Effect.slackMessage channel
        ("Sorry, I couldn\x27t find the role " ++ role_name ++ (" for ") ++
          app_name ++ ("."))], none)
  | some role_config =>
      let approval := role_config.approval?.getD ⟨none, none, none, none⟩
      let approval_type := approval.type?.getD ("MANUAL")
      let approver_emails := approval.approver_emails?.getD []
      let threshold := approval.threshold?.getD 1
      let logic := approval.logic?.getD ("ANY")
      let group_name := role_config.group_name
      let group_id := role_config.group_id
      let required_approvals := required_approvals_calc approval_type logic
        threshold approver_emails
      match env.email_of user_id with
      | none =>
          (st, [Effect.slackMessage channel
            ("Sorry, I couldn\x27t look up your email. Please try again.")],
            none)
      | some requester_email =>
          let request_id := fresh_request_id
          let reqs1 := create_access_request st.requests now request_id
            user_id requester_email app_name role_name group_name group_id
            approval_type required_approvals approver_emails
          if approval_type = ("NONE") then
            let (reqs2, _) := update_request_status reqs1 now request_id
              ("approved") none none
            ({ requests := reqs2, messages := st.messages },
              [Effect.invokeProvisioner request_id requester_email group_id
                channel], some request_id)
          else
            let (msgs1, effs) := send_approval_requests env now request_id
              requester_email app_name role_name role_config approver_emails
              channel msg_ids st.messages
            ({ requests := reqs1, messages := msgs1 }, effs, some request_id)

/-- Response path, `handle_approval_response` (index.py lines 501-570),
processing one approver's button click: split the combined token (`none`
models the uncaught `ValueError` on a malformed token, raised before any
write), resolve the clicker's email (silent return on failure), mark the
message record clicked, fetch the request (telling the clicker when it is
gone), take the silent-acknowledgment path when the request is no longer
pending or the clicker already voted, record the vote (approve keeps status
`pending`, deny sets `denied` and notifies the requester), and on the
approve side re-evaluate the threshold, flipping the request to `approved`,
notifying the requester, and invoking the provisioner when it is met. -/
def handle_approval_response (env : Env) (st : SysState) (now : Nat)
    (user_id action_id combined_value response_url : String) :
    Option (SysState × List Effect) :=
  match decodeCombined combined_value with
  | none => none
  | some (request_id, approval_msg_id) =>
      match env.email_of user_id with
      | none => some (st, [])
      | some approver_email =>
          let msgs1 := markMessageClicked st.messages approval_msg_id user_id
          match get_access_request st.requests request_id with
          | none =>
              some ({ requests := st.requests, messages := msgs1 },
                [Effect.updatePrompt response_url
                  ("This request no longer exists.")])
          | some request =>
              if request.status ≠ ("pending") then
                some ({ requests := st.requests, messages := msgs1 },
                  [Effect.updatePrompt response_url
                    ("This request has already been " ++ request.status ++
                      ("."))])
              else if approver_email ∈ request.approvals_received ∨
                  approver_email ∈ request.denials_received then
                some ({ requests := st.requests, messages := msgs1 },
                  [Effect.updatePrompt response_url
                    ("You\x27ve already responded to this request.")])
              else if action_id = ("deny_request") then
                let (reqs1, _) := update_request_status st.requests now
                  request_id ("denied") (some approver_email) (some ("deny"))
                some ({ requests := reqs1, messages := msgs1 },
                  [Effect.updatePrompt response_url
                    ("✗ You denied access for " ++ request.user_email ++
                      (" to ") ++ request.app ++ (" ") ++ request.role ++
                      (".")),
                   Effect.slackMessage request.user_id
                    ("Your request for " ++ request.app ++ (" ") ++
                      request.role ++ (" was denied by an approver."))])
              else
                let (reqs1, ackEffs) :=
                  if action_id = ("approve_request") then
                    let (reqs1, _) := update_request_status st.requests now
                      request_id ("pending") (some approver_email)
                      (some ("approve"))
                    (reqs1, [Effect.updatePrompt response_url
                      ("✓ You approved access for " ++ request.user_email ++
                        (" to ") ++ request.app ++ (" ") ++ request.role ++
                        ("."))])
                  else (st.requests, [])
                if check_approval_threshold reqs1 request_id = ("approved")
                then
                  let (reqs2, _) := update_request_status reqs1 now
                    request_id ("approved") none none
                  some ({ requests := reqs2, messages := msgs1 },
                    ackEffs ++
                    [Effect.postMessage request.user_id
                      ("✅ Your request for *" ++ request.app ++ (" ") ++
                        request.role ++ ("* was *approved* by <@") ++
                        user_id ++ (">.")),
                     Effect.invokeProvisioner request_id request.user_email
                      request.group_id request.user_id])
                else
                  some ({ requests := reqs1, messages := msgs1 }, ackEffs)

/-- Inbound events of `lambda_handler` (index.py lines 577-637): a confirmed
new request from the conversation manager, or an approver's button click
relayed by the event handler.  `fresh_id` and `msg_ids` carry the identifier
supply that the Python code draws from `uuid.uuid4()`. -/
inductive Event where
  | new_request (user_id channel app role : String) (fresh_id : String)
      (msg_ids : List String)
  | approval_response (user_id action_id action_value response_url : String)
  deriving DecidableEq, Repr

/-- One `lambda_handler` invocation (index.py lines 577-637): validate the
required fields (Python truthiness: an empty string is missing), then
dispatch to `process_new_request` or `handle_approval_response`.  A raised
exception (malformed combined token) leaves the state unchanged because it
occurs before any write. -/
def step (env : Env) (st : SysState) (now : Nat) (e : Event) :
    SysState × List Effect :=
  match e with
  | .new_request user_id channel app role fresh_id msg_ids =>
      if user_id = ("") ∨ channel = ("") ∨ app = ("") ∨ role = ("") then
        (st, [])
      else
        let (st', effs, _) := process_new_request env st now fresh_id msg_ids
          user_id channel app role
        (st', effs)
  | .approval_response user_id action_id action_value response_url =>
      if user_id = ("") ∨ action_id = ("") ∨ action_value = ("") ∨
          response_url = ("") then (st, [])
      else
        match handle_approval_response env st now user_id action_id
          action_value response_url with
        | none => (st, [])
        | some r => r

/-- Sequential processing of a list of inbound events, threading the state
and the clock and concatenating the outbound calls. -/
def run (env : Env) (st : SysState) (now : Nat) :
    List Event → SysState × List Effect
  | [] => (st, [])
  | e :: es =>
      let (st1, effs1) := step env st now e
      let (st2, effs2) := run env st1 (now + 1) es
      (st2, effs1 ++ effs2)

/-- Per-record state invariant of the approval core: the vote lists hold no
duplicates, no identity sits in both lists, a recorded denial forces status
`denied`, and a pending request has a non-`NONE` policy snapshot with the
approval count still below the requirement. -/
def ReqInv (r : AccessRequest) : Prop :=
  r.approvals_received.Nodup ∧ r.denials_received.Nodup ∧
  (∀ e, e ∈ r.approvals_received → e ∉ r.denials_received) ∧
  (r.denials_received ≠ [] → r.status = ("denied")) ∧
  (r.status = ("pending") →
    r.approval_type ≠ ("NONE") ∧
    (r.approvals_received.length : Int) < r.required_approvals)

/-- Store-wide invariant: every stored request record satisfies `ReqInv`. -/
def AllInv (db : List (String × AccessRequest)) : Prop :=
  ∀ k r, tblLookup db k = some r → ReqInv r

/-- Recognizer for button-click events. -/
def isResponseEvent : Event → Bool
  | .approval_response _ _ _ _ => true
  | _ => false

/-- Recognizer for the two terminal-state outbound effects of the response
path: the provisioning trigger (`lambda_client.invoke`) and the
`send_slack_message` requester notification (which, inside
`handle_approval_response`, occurs only as the denial notice of line 548). -/
def isTerminalEffect : Effect → Bool
  | .slackMessage _ _ => true
  | .invokeProvisioner _ _ _ _ => true
  | _ => false

/-- Number of terminal-state outbound effects in a call list. -/
def countTerminal (effs : List Effect) : Nat :=
  (effs.filter isTerminalEffect).length

/-- Concrete catalog fixture: one application `aws` with a `developer` role
under a 2-of-3 `MANUAL`/`ANY` policy. -/
def scenarioCatalog : Catalog :=
  ⟨[⟨("aws"),
     [⟨("developer"), some ("dev role"), some ("g"), some ("gid1"),
       some ⟨some ("MANUAL"), some [("a@x"), ("b@x"), ("c@x")], some 2,
         some ("ANY")⟩⟩]⟩]⟩

/-- Concrete oracle fixture: requester `UR` and approvers `UA`/`UB`/`UC`
resolve to emails, every approver email resolves to a Slack id, and every DM
delivery succeeds. -/
def scenarioEnv : Env :=
  { catalog := scenarioCatalog
    email_of := fun u =>
      if u = ("UA") then some ("a@x")
      else if u = ("UB") then some ("b@x")
      else if u = ("UC") then some ("c@x")
      else if u = ("UR") then some ("r@x")
      else none
    slack_id_of := fun e =>
      if e = ("a@x") then some ("SA")
      else if e = ("b@x") then some ("SB")
      else if e = ("c@x") then some ("SC")
      else none
    dm_result := fun _ _ => some ("ts1") }

/-- Concrete event fixture: creation of the 2-of-3 request followed by the
response order of the claimed test — approver A approves, approver B denies,
approver C approves. -/
def scenarioEvents : List Event :=
  [.new_request ("UR") ("D1") ("aws") ("developer") ("r1")
     [("m1"), ("m2"), ("m3")],
   .approval_response ("UA") ("approve_request") ("r1:m1") ("u1"),
   .approval_response ("UB") ("deny_request") ("r1:m2") ("u2"),
   .approval_response ("UC") ("approve_request") ("r1:m3") ("u3")]

/-- Concrete pending 2-of-3 request record used to exhibit the read-modify-
write race of `update_request_status` and as a witness input. -/
def raceRequest : AccessRequest :=
  { request_id := ("r1")
    user_id := ("UR")
    user_email := ("r@x")
    app := ("aws")
    role := ("developer")
    group_name := some ("g")
    group_id := some ("gid1")
    status := ("pending")
    approval_type := ("MANUAL")
    required_approvals := 2
    approver_emails := [("a@x"), ("b@x"), ("c@x")]
    approvals_received := []
    denials_received := []
    created_at := 0
    updated_at := 0 }

/-- Single-record request table holding `raceRequest`. -/
def raceDb : List (String × AccessRequest) := [(("r1"), raceRequest)]

/-- Concrete catalog fixture with an auto-approve role: application `aws`,
role `admin`, approval type `NONE`. -/
def noneCatalog : Catalog :=
  ⟨[⟨("aws"),
     [⟨("admin"), none, none, some ("gid2"),
       some ⟨some ("NONE"), none, none, none⟩⟩]⟩]⟩

/-- Concrete oracle fixture for the auto-approve scenario: only requester
`UR` resolves to an email; no approver can be reached. -/
def noneEnv : Env :=
  { catalog := noneCatalog
    email_of := fun u => if u = ("UR") then some ("r@x") else none
    slack_id_of := fun _ => none
    dm_result := fun _ _ => none }

/-- Reading back the key just written returns the written value. -/
lemma tblLookup_tblPut_self {α : Type} (db : List (String × α)) (k : String)
    (v : α) : tblLookup (tblPut db k v) k = some v := by
  induction db with
  | nil => simp [tblPut, tblLookup]
  | cons p rest ih =>
      obtain ⟨k0, v0⟩ := p
      by_cases h : k0 = k
      · simp [tblPut, tblLookup, h]
      · simp [tblPut, tblLookup, h, ih]

/-- Writing one key leaves every other key's value unchanged. -/
lemma tblLookup_tblPut_ne {α : Type} (db : List (String × α))
    (k k' : String) (v : α) (h : k' ≠ k) :
    tblLookup (tblPut db k v) k' = tblLookup db k' := by
  have h2 : ¬ k = k' := fun hh => h hh.symm
  induction db with
  | nil => simp [tblPut, tblLookup, h2]
  | cons p rest ih =>
      obtain ⟨k0, v0⟩ := p
      by_cases h0 : k0 = k
      · subst h0
        simp [tblPut, tblLookup, h2]
      · simp only [tblPut, if_neg h0]
        by_cases h1 : k0 = k'
        · simp [tblLookup, h1]
        · simp [tblLookup, h1, ih]

/-- Writing back the value a key already holds leaves the table unchanged. -/
lemma tblPut_lookup_self {α : Type} (db : List (String × α)) (k : String)
    (v : α) (h : tblLookup db k = some v) : tblPut db k v = db := by
  induction db with
  | nil => simp [tblLookup] at h
  | cons p rest ih =>
      obtain ⟨k0, v0⟩ := p
      by_cases h0 : k0 = k
      · subst h0
        simp [tblLookup] at h
        simp [tblPut, h]
      · simp [tblLookup, h0] at h
        simp [tblPut, h0, ih h]

/-- A store whose records all satisfy `ReqInv` keeps that property after
writing one record that satisfies it. -/
lemma AllInv_tblPut {db : List (String × AccessRequest)} {k : String}
    {v : AccessRequest} (hAll : AllInv db) (hv : ReqInv v) :
    AllInv (tblPut db k v) := by
  intro k' r hr
  by_cases h : k' = k
  · subst h
    rw [tblLookup_tblPut_self] at hr
    cases hr
    exact hv
  · rw [tblLookup_tblPut_ne db k k' v h] at hr
    exact hAll k' r hr

/-- A colon-free character list splits into the single chunk holding it. -/
lemma pySplitColon_no_colon (l : List Char) (h : ':' ∉ l) :
    pySplitColon l = [l] := by
  induction l with
  | nil => simp [pySplitColon]
  | cons c rest ih =>
      have hc : ¬ c = ':' := fun hh => h (by simp [hh])
      have hrest : ':' ∉ rest := fun hh => h (by simp [hh])
      simp [pySplitColon, hc, ih hrest]

/-- Splitting a list whose first colon separates a colon-free head from a
tail yields the head chunk followed by the tail's chunks. -/
lemma pySplitColon_append (l1 l2 : List Char) (h : ':' ∉ l1) :
    pySplitColon (l1 ++ ':' :: l2) = l1 :: pySplitColon l2 := by
  induction l1 with
  | nil => simp [pySplitColon]
  | cons c rest ih =>
      have hc : ¬ c = ':' := fun hh => h (by simp [hh])
      have hrest : ':' ∉ rest := fun hh => h (by simp [hh])
      simp only [List.cons_append, pySplitColon, if_neg hc, List.append_eq,
        ih hrest]

/-- Reduction of `update_request_status` when the read succeeds: the write
is the unconditional put of the rewritten item. -/
lemma update_request_status_eq (db : List (String × AccessRequest))
    (now : Nat) (request_id status : String) (approver_email : Option String)
    (action : Option String) (request : AccessRequest)
    (h : get_access_request db request_id = some request) :
    update_request_status db now request_id status approver_email action =
      (tblPut db request_id
        (apply_vote_update request now status approver_email action), true)
    := by
  unfold update_request_status
  rw [h]

/-- Status-only rewrite: no action means only `status` and `updated_at`
change. -/
lemma apply_vote_update_none (r : AccessRequest) (now : Nat)
    (status : String) :
    apply_vote_update r now status none none =
      { r with status := status, updated_at := now } := rfl

/-- Approve rewrite for a fresh voter: the email is appended to
`approvals_received`. -/
lemma apply_vote_update_approve (r : AccessRequest) (now : Nat)
    (status em : String) (h : em ∉ r.approvals_received) :
    apply_vote_update r now status (some em) (some ("approve")) =
      { r with
        status := status
        updated_at := now
        approvals_received := r.approvals_received ++ [em] } := by
  unfold apply_vote_update
  simp [h]

/-- Deny rewrite for a fresh voter: the email is appended to
`denials_received`. -/
lemma apply_vote_update_deny (r : AccessRequest) (now : Nat)
    (status em : String) (h : em ∉ r.denials_received) :
    apply_vote_update r now status (some em) (some ("deny")) =
      { r with
        status := status
        updated_at := now
        denials_received := r.denials_received ++ [em] } := by
  unfold apply_vote_update
  simp [h]

/-- A fresh denial preserves the record invariant. -/
lemma ReqInv_mk_denied (r : AccessRequest) (now : Nat) (em : String)
    (hInv : ReqInv r) (hemA : em ∉ r.approvals_received)
    (hemD : em ∉ r.denials_received) :
    ReqInv { r with
      status := ("denied")
      updated_at := now
      denials_received := r.denials_received ++ [em] } := by
  obtain ⟨hA, hD, hdisj, _, _⟩ := hInv
  refine ⟨hA, ?_, ?_, fun _ => rfl, ?_⟩
  · simp [List.nodup_append, hD, hemD]
  · intro e he
    simp only [List.mem_append, List.mem_singleton]
    rintro (h1 | h2)
    · exact hdisj e he h1
    · subst h2
      exact hemA he
  · intro hco
    simp at hco

/-- A fresh approval that leaves the request pending preserves the record
invariant, given the threshold is still not met. -/
lemma ReqInv_mk_pending_vote (r : AccessRequest) (now : Nat) (em : String)
    (hInv : ReqInv r) (hden : r.denials_received = [])
    (hemA : em ∉ r.approvals_received) (htype : r.approval_type ≠ ("NONE"))
    (hlen : ((r.approvals_received ++ [em]).length : Int) <
      r.required_approvals) :
    ReqInv { r with
      status := ("pending")
      updated_at := now
      approvals_received := r.approvals_received ++ [em] } := by
  obtain ⟨hA, hD, _, _, _⟩ := hInv
  refine ⟨?_, hD, ?_, ?_, ?_⟩
  · simp [List.nodup_append, hA, hemA]
  · intro e _
    simp [hden]
  · intro hco
    simp [hden] at hco
  · intro _
    exact ⟨htype, hlen⟩

/-- The approve-then-finalize rewrite preserves the record invariant. -/
lemma ReqInv_mk_approved_vote (r : AccessRequest) (now : Nat) (em : String)
    (hInv : ReqInv r) (hden : r.denials_received = [])
    (hemA : em ∉ r.approvals_received) :
    ReqInv { r with
      status := ("approved")
      updated_at := now
      approvals_received := r.approvals_received ++ [em] } := by
  obtain ⟨hA, hD, _, _, _⟩ := hInv
  refine ⟨?_, hD, ?_, ?_, ?_⟩
  · simp [List.nodup_append, hA, hemA]
  · intro e _
    simp [hden]
  · intro hco
    simp [hden] at hco
  · intro hco
    simp at hco

/-- Finalizing a record to `approved` without touching the vote lists
preserves the record invariant when no denial is recorded. -/
lemma ReqInv_mk_approved_novote (r : AccessRequest) (now : Nat)
    (hInv : ReqInv r) (hden : r.denials_received = []) :
    ReqInv { r with status := ("approved"), updated_at := now } := by
  obtain ⟨hA, hD, hdisj, _, _⟩ := hInv
  refine ⟨hA, hD, hdisj, ?_, ?_⟩
  · intro hco
    simp [hden] at hco
  · intro hco
    simp at hco

/-- A pending record that satisfies the invariant has no recorded denial. -/
lemma ReqInv_pending_denials (r : AccessRequest) (hInv : ReqInv r)
    (hp : r.status = ("pending")) : r.denials_received = [] := by
  obtain ⟨_, _, _, hdi, _⟩ := hInv
  by_contra hco
  have := hdi hco
  rw [hp] at this
  simp at this


/-- Processing one button click preserves the store-wide invariant. -/
lemma handle_AllInv (env : Env) (st : SysState) (now : Nat)
    (uid aid val url : String) (st' : SysState) (effs : List Effect)
    (hAll : AllInv st.requests)
    (h : handle_approval_response env st now uid aid val url =
      some (st', effs)) : AllInv st'.requests := by
  unfold handle_approval_response at h
  cases hdec : decodeCombined val with
  | none => rw [hdec] at h; exact absurd h (by simp)
  | some p =>
    obtain ⟨rid, mid⟩ := p
    simp only [hdec] at h
    cases hem : env.email_of uid with
    | none =>
        simp only [hem, Option.some.injEq, Prod.mk.injEq] at h
        obtain ⟨h1, _⟩ := h
        subst h1
        exact hAll
    | some em =>
      simp only [hem] at h
      cases hreq : get_access_request st.requests rid with
      | none =>
          simp only [hreq, Option.some.injEq, Prod.mk.injEq] at h
          obtain ⟨h1, _⟩ := h
          subst h1
          exact hAll
      | some request =>
        simp only [hreq] at h
        have hInv : ReqInv request := hAll rid request hreq
        by_cases hstat : request.status = ("pending")
        case neg =>
          rw [if_pos hstat] at h
          simp only [Option.some.injEq, Prod.mk.injEq] at h
          obtain ⟨h1, _⟩ := h
          subst h1
          exact hAll
        case pos =>
        rw [if_neg (by simp [hstat])] at h
        by_cases hdup : em ∈ request.approvals_received ∨
            em ∈ request.denials_received
        case pos =>
          rw [if_pos hdup] at h
          simp only [Option.some.injEq, Prod.mk.injEq] at h
          obtain ⟨h1, _⟩ := h
          subst h1
          exact hAll
        case neg =>
        rw [if_neg hdup] at h
        push_neg at hdup
        obtain ⟨hemA, hemD⟩ := hdup
        have hden : request.denials_received = [] :=
          ReqInv_pending_denials request hInv hstat
        by_cases hdact : aid = ("deny_request")
        case pos =>
          rw [if_pos hdact] at h
          rw [update_request_status_eq st.requests now rid ("denied")
            (some em) (some ("deny")) request hreq] at h
          rw [apply_vote_update_deny request now ("denied") em hemD] at h
          simp only [Option.some.injEq, Prod.mk.injEq] at h
          obtain ⟨h1, _⟩ := h
          subst h1
          exact AllInv_tblPut hAll (ReqInv_mk_denied request now em hInv hemA hemD)
        case neg =>
        rw [if_neg hdact] at h
        by_cases happ : aid = ("approve_request")
        case pos =>
          rw [if_pos happ] at h
          rw [update_request_status_eq st.requests now rid ("pending")
            (some em) (some ("approve")) request hreq] at h
          rw [apply_vote_update_approve request now ("pending") em hemA] at h
          by_cases hthr : check_approval_threshold
              (tblPut st.requests rid
                { request with
                  status := ("pending")
                  updated_at := now
                  approvals_received := request.approvals_received ++ [em] })
              rid = ("approved")
          case pos =>
            rw [if_pos hthr] at h
            rw [update_request_status_eq
              (tblPut st.requests rid
                { request with
                  status := ("pending")
                  updated_at := now
                  approvals_received := request.approvals_received ++ [em] })
              now rid ("approved") none none
              { request with
                status := ("pending")
                updated_at := now
                approvals_received := request.approvals_received ++ [em] }
              (by unfold get_access_request; exact tblLookup_tblPut_self _ _ _)]
              at h
            rw [apply_vote_update_none] at h
            simp only [Option.some.injEq, Prod.mk.injEq] at h
            obtain ⟨h1, _⟩ := h
            subst h1
            intro k r hk
            by_cases hkr : k = rid
            · subst hkr
              rw [tblLookup_tblPut_self] at hk
              injection hk with hk
              subst hk
              exact ReqInv_mk_approved_vote request now em hInv hden hemA
            · rw [tblLookup_tblPut_ne _ _ _ _ hkr,
                tblLookup_tblPut_ne _ _ _ _ hkr] at hk
              exact hAll k r hk
          case neg =>
            rw [if_neg hthr] at h
            simp only [Option.some.injEq, Prod.mk.injEq] at h
            obtain ⟨h1, _⟩ := h
            subst h1
            have htyp : request.approval_type ≠ ("NONE") := by
              intro hco
              apply hthr
              unfold check_approval_threshold get_access_request
              rw [tblLookup_tblPut_self]
              simp [hden, hco]
            have hlt : ((request.approvals_received ++ [em]).length : Int) <
                request.required_approvals := by
              by_contra hco
              push_neg at hco
              apply hthr
              unfold check_approval_threshold get_access_request
              rw [tblLookup_tblPut_self]
              simp [hden, htyp]
              simpa using hco
            exact AllInv_tblPut hAll
              (ReqInv_mk_pending_vote request now em hInv hden hemA htyp hlt)
        case neg =>
          rw [if_neg happ] at h
          by_cases hthr : check_approval_threshold st.requests rid =
              ("approved")
          case pos =>
            rw [if_pos hthr] at h
            rw [update_request_status_eq st.requests now rid ("approved")
              none none request hreq] at h
            rw [apply_vote_update_none] at h
            simp only [Option.some.injEq, Prod.mk.injEq] at h
            obtain ⟨h1, _⟩ := h
            subst h1
            exact AllInv_tblPut hAll
              (ReqInv_mk_approved_novote request now hInv hden)
          case neg =>
            rw [if_neg hthr] at h
            simp only [Option.some.injEq, Prod.mk.injEq] at h
            obtain ⟨h1, _⟩ := h
            subst h1
            exact hAll


/-- A policy other than `NONE` always requires at least one approval. -/
lemma required_calc_pos (t logic : String) (thr : Int)
    (emails : List String) (h : t ≠ ("NONE")) :
    1 ≤ required_approvals_calc t logic thr emails := by
  unfold required_approvals_calc
  rw [if_neg h]
  split_ifs <;> first
    | omega
    | exact_mod_cast List.length_pos.mpr (by assumption)

/-- Processing one new-request event preserves the store-wide invariant. -/
lemma process_AllInv (env : Env) (st : SysState) (now : Nat)
    (fid : String) (mids : List String) (uid ch app role : String)
    (hAll : AllInv st.requests) :
    AllInv (process_new_request env st now fid mids uid ch app role).1.requests
    := by
  unfold process_new_request
  cases hrc : get_role_config env.catalog app role with
  | none => exact hAll
  | some cfg =>
    simp only []
    cases hem : env.email_of uid with
    | none => exact hAll
    | some em =>
      simp only []
      by_cases htype : (cfg.approval?.getD ⟨none, none, none, none⟩).type?.getD
          ("MANUAL") = ("NONE")
      · rw [if_pos htype]
        rw [update_request_status_eq _ now fid ("approved") none none _
          (by unfold create_access_request get_access_request
              exact tblLookup_tblPut_self _ _ _)]
        rw [apply_vote_update_none]
        unfold create_access_request
        intro k r hk
        by_cases hkr : k = fid
        · subst hkr
          rw [tblLookup_tblPut_self] at hk
          injection hk with hk
          subst hk
          refine ⟨List.nodup_nil, List.nodup_nil, ?_, ?_, ?_⟩
          · intro e he
            simp at he
          · intro hco
            simp at hco
          · intro hco
            simp at hco
        · rw [tblLookup_tblPut_ne _ _ _ _ hkr,
            tblLookup_tblPut_ne _ _ _ _ hkr] at hk
          exact hAll k r hk
      · rw [if_neg htype]
        set p := send_approval_requests env now fid em app role cfg
          ((cfg.approval?.getD ⟨none, none, none, none⟩).approver_emails?.getD
            []) ch mids st.messages with hp
        obtain ⟨m1, e1⟩ := p
        unfold create_access_request
        intro k r hk
        by_cases hkr : k = fid
        · subst hkr
          rw [tblLookup_tblPut_self] at hk
          injection hk with hk
          subst hk
          have hpos := required_calc_pos
            ((cfg.approval?.getD ⟨none, none, none, none⟩).type?.getD
              ("MANUAL"))
            ((cfg.approval?.getD ⟨none, none, none, none⟩).logic?.getD
              ("ANY"))
            ((cfg.approval?.getD ⟨none, none, none, none⟩).threshold?.getD 1)
            ((cfg.approval?.getD ⟨none, none, none, none⟩).approver_emails?.getD
              []) htype
          refine ⟨List.nodup_nil, List.nodup_nil, ?_, ?_, ?_⟩
          · intro e he
            simp at he
          · intro hco
            simp at hco
          · intro _
            refine ⟨htype, ?_⟩
            simp only [List.length_nil]
            omega
        · rw [tblLookup_tblPut_ne _ _ _ _ hkr] at hk
          exact hAll k r hk


/-- One `lambda_handler` invocation preserves the store-wide invariant. -/
lemma step_AllInv (env : Env) (st : SysState) (now : Nat) (e : Event)
    (hAll : AllInv st.requests) : AllInv (step env st now e).1.requests := by
  cases e with
  | new_request uid ch app role fid mids =>
      simp only [step]
      by_cases hc : uid = ("") ∨ ch = ("") ∨ app = ("") ∨ role = ("")
      · rw [if_pos hc]
        exact hAll
      · rw [if_neg hc]
        have h1 := process_AllInv env st now fid mids uid ch app role hAll
        rcases hp : process_new_request env st now fid mids uid ch app role
          with ⟨st1, effs1, ret1⟩
        rw [hp] at h1
        exact h1
  | approval_response uid aid val url =>
      simp only [step]
      by_cases hc : uid = ("") ∨ aid = ("") ∨ val = ("") ∨ url = ("")
      · rw [if_pos hc]
        exact hAll
      · rw [if_neg hc]
        cases hh : handle_approval_response env st now uid aid val url with
        | none => exact hAll
        | some r =>
            obtain ⟨st1, effs1⟩ := r
            exact handle_AllInv env st now uid aid val url st1 effs1 hAll hh

/-- Any event sequence preserves the store-wide invariant. -/
lemma run_AllInv (env : Env) (st : SysState) (now : Nat) (evs : List Event)
    (hAll : AllInv st.requests) :
    AllInv (run env st now evs).1.requests := by
  induction evs generalizing st now with
  | nil => exact hAll
  | cons e es ih =>
      have h1 := step_AllInv env st now e hAll
      unfold run
      rcases hstep : step env st now e with ⟨st1, effs1⟩
      rw [hstep] at h1
      dsimp only
      have h2 := ih st1 (now + 1) h1
      rcases hrun : run env st1 (now + 1) es with ⟨st2, effs2⟩
      rw [hrun] at h2
      exact h2


/-- Terminal-effect count distributes over concatenation. -/
lemma countTerminal_append (a b : List Effect) :
    countTerminal (a ++ b) = countTerminal a + countTerminal b := by
  simp [countTerminal, List.filter_append]

/-- Writing the key of a singleton table replaces its record. -/
lemma tblPut_singleton {α : Type} (k : String) (a v : α) :
    tblPut [(k, a)] k v = [(k, v)] := by
  simp [tblPut]

/-- Reading the key of a singleton table returns its record. -/
lemma get_access_request_singleton (k : String) (v : AccessRequest) :
    get_access_request [(k, v)] k = some v := by
  simp [get_access_request, tblLookup]

/-- Single-request characterization of one button-click step: the request
table keeps exactly its one record; a click on an already-terminal request
changes nothing and fires no terminal effect; a click on a pending request
fires exactly one terminal effect precisely when it drives the request out
of `pending`. -/
lemma step_single (env : Env) (rid : String) (r : AccessRequest)
    (msgs : List (String × ApprovalMessage)) (now : Nat)
    (uid aid val url : String) :
    ∃ r' msgs1 effs,
      step env ⟨[(rid, r)], msgs⟩ now (.approval_response uid aid val url) =
        (⟨[(rid, r')], msgs1⟩, effs) ∧
      (r.status ≠ ("pending") → r' = r ∧ countTerminal effs = 0) ∧
      (r.status = ("pending") →
        countTerminal effs = if r'.status = ("pending") then 0 else 1) := by
  by_cases hc : uid = ("") ∨ aid = ("") ∨ val = ("") ∨ url = ("")
  case pos =>
    refine ⟨r, msgs, [], ?_, ?_, ?_⟩
    · simp only [step, if_pos hc]
    · intro _
      exact ⟨rfl, rfl⟩
    · intro hp
      simp [countTerminal, hp]
  case neg =>
  simp only [step, if_neg hc]
  unfold handle_approval_response
  cases hdec : decodeCombined val with
  | none =>
      refine ⟨r, msgs, [], by simp, fun _ => ⟨rfl, rfl⟩, ?_⟩
      intro hp
      simp [countTerminal, hp]
  | some p =>
    obtain ⟨rid2, mid⟩ := p
    simp only []
    cases hem : env.email_of uid with
    | none =>
        refine ⟨r, msgs, [], by simp, fun _ => ⟨rfl, rfl⟩, ?_⟩
        intro hp
        simp [countTerminal, hp]
    | some em =>
      simp only []
      cases hget : get_access_request [(rid, r)] rid2 with
      | none =>
          refine ⟨r, markMessageClicked msgs mid uid, _, rfl,
            fun _ => ⟨rfl, ?_⟩, ?_⟩
          · simp [countTerminal, isTerminalEffect]
          · intro hp
            simp [countTerminal, isTerminalEffect, hp]
      | some request =>
      have hkr : rid = rid2 ∧ r = request := by
        simp only [get_access_request, tblLookup] at hget
        by_cases hk : rid = rid2
        · rw [if_pos hk] at hget
          exact ⟨hk, Option.some.inj hget⟩
        · rw [if_neg hk] at hget
          cases hget
      obtain ⟨hk, hreqr⟩ := hkr
      subst hreqr
      subst hk
      dsimp only
      by_cases hstat : r.status = ("pending")
      case neg =>
        rw [if_pos hstat]
        refine ⟨r, markMessageClicked msgs mid uid, _, rfl, fun _ => ⟨rfl, ?_⟩,
          ?_⟩
        · simp [countTerminal, isTerminalEffect]
        · intro hp
          exact absurd hp hstat
      case pos =>
      rw [if_neg (by simp [hstat])]
      by_cases hdup : em ∈ r.approvals_received ∨ em ∈ r.denials_received
      case pos =>
        rw [if_pos hdup]
        refine ⟨r, markMessageClicked msgs mid uid, _, rfl,
          fun hco => absurd hstat hco, ?_⟩
        intro _
        simp [countTerminal, isTerminalEffect, hstat]
      case neg =>
      rw [if_neg hdup]
      push_neg at hdup
      obtain ⟨hemA, hemD⟩ := hdup
      by_cases hdact : aid = ("deny_request")
      case pos =>
        rw [if_pos hdact]
        rw [update_request_status_eq [(rid, r)] now rid ("denied")
          (some em) (some ("deny")) r hget]
        rw [apply_vote_update_deny r now ("denied") em hemD]
        rw [tblPut_singleton]
        refine ⟨_, markMessageClicked msgs mid uid, _, rfl,
          fun hco => absurd hstat hco, ?_⟩
        intro _
        simp [countTerminal, isTerminalEffect]
      case neg =>
      rw [if_neg hdact]
      by_cases happ : aid = ("approve_request")
      case pos =>
        rw [if_pos happ]
        rw [update_request_status_eq [(rid, r)] now rid ("pending")
          (some em) (some ("approve")) r hget]
        rw [apply_vote_update_approve r now ("pending") em hemA]
        rw [tblPut_singleton]
        set r1 : AccessRequest :=
          { r with
            status := ("pending")
            updated_at := now
            approvals_received := r.approvals_received ++ [em] } with hr1
        by_cases hthr : check_approval_threshold [(rid, r1)] rid =
            ("approved")
        case pos =>
          rw [if_pos hthr]
          rw [update_request_status_eq [(rid, r1)] now rid ("approved")
            none none r1 (get_access_request_singleton rid r1)]
          rw [apply_vote_update_none]
          rw [tblPut_singleton]
          refine ⟨_, markMessageClicked msgs mid uid, _, rfl,
            fun hco => absurd hstat hco, ?_⟩
          intro _
          simp [countTerminal, isTerminalEffect]
        case neg =>
          rw [if_neg hthr]
          refine ⟨r1, markMessageClicked msgs mid uid, _, rfl,
            fun hco => absurd hstat hco, ?_⟩
          intro _
          simp [countTerminal, isTerminalEffect, hr1]
      case neg =>
        rw [if_neg happ]
        by_cases hthr : check_approval_threshold [(rid, r)] rid = ("approved")
        case pos =>
          rw [if_pos hthr]
          rw [update_request_status_eq [(rid, r)] now rid ("approved")
            none none r hget]
          rw [apply_vote_update_none]
          rw [tblPut_singleton]
          refine ⟨_, markMessageClicked msgs mid uid, _, rfl,
            fun hco => absurd hstat hco, ?_⟩
          intro _
          simp [countTerminal, isTerminalEffect]
        case neg =>
          rw [if_neg hthr]
          refine ⟨r, markMessageClicked msgs mid uid, _, rfl,
            fun hco => absurd hstat hco, ?_⟩
          intro _
          simp [countTerminal, isTerminalEffect, hstat]


/-- Single-request characterization of a whole response-event run: the
request table keeps exactly one record; a run started on a terminal request
changes nothing and fires no terminal effect; a run started on a pending
request fires exactly one terminal effect precisely when its final status is
no longer `pending`. -/
lemma run_single (env : Env) (rid : String) (r : AccessRequest)
    (msgs : List (String × ApprovalMessage)) (now : Nat) (evs : List Event)
    (hResp : ∀ e ∈ evs, isResponseEvent e = true) :
    ∃ r' msgs1 effs,
      run env ⟨[(rid, r)], msgs⟩ now evs = (⟨[(rid, r')], msgs1⟩, effs) ∧
      (r.status ≠ ("pending") → r' = r ∧ countTerminal effs = 0) ∧
      (r.status = ("pending") →
        countTerminal effs = if r'.status = ("pending") then 0 else 1) := by
  induction evs generalizing r msgs now with
  | nil =>
      refine ⟨r, msgs, [], rfl, fun _ => ⟨rfl, rfl⟩, ?_⟩
      intro hp
      simp [countTerminal, hp]
  | cons e es ih =>
      have hRe : isResponseEvent e = true := hResp e (by simp)
      have hRes : ∀ x ∈ es, isResponseEvent x = true :=
        fun x hx => hResp x (by simp [hx])
      cases e with
      | new_request u c a ro f m => simp [isResponseEvent] at hRe
      | approval_response uid aid val url =>
        obtain ⟨r1, m1, e1, hstep, hterm1, hpend1⟩ :=
          step_single env rid r msgs now uid aid val url
        obtain ⟨r2, m2, e2, hrun, hterm2, hpend2⟩ :=
          ih r1 m1 (now + 1) hRes
        refine ⟨r2, m2, e1 ++ e2, ?_, ?_, ?_⟩
        · unfold run
          rw [hstep]
          dsimp only
          rw [hrun]
        · intro hst
          obtain ⟨hr1, hc1⟩ := hterm1 hst
          subst hr1
          obtain ⟨hr2, hc2⟩ := hterm2 hst
          subst hr2
          exact ⟨rfl, by rw [countTerminal_append, hc1, hc2]⟩
        · intro hst
          rw [countTerminal_append]
          by_cases hst1 : r1.status = ("pending")
          · rw [hpend1 hst, if_pos hst1, hpend2 hst1]
            simp
          · rw [hpend1 hst, if_neg hst1]
            obtain ⟨hr2, hc2⟩ := hterm2 hst1
            subst hr2
            rw [hc2, if_neg hst1]


/-- Sequential processing decomposes over list append, with the clock
advanced by the length of the first segment. -/
lemma run_append (env : Env) (st : SysState) (now : Nat)
    (evs1 evs2 : List Event) :
    run env st now (evs1 ++ evs2) =
      ((run env (run env st now evs1).1 (now + evs1.length) evs2).1,
        (run env st now evs1).2 ++
          (run env (run env st now evs1).1 (now + evs1.length) evs2).2) := by
  induction evs1 generalizing st now with
  | nil => simp [run]
  | cons e es ih =>
      simp only [List.cons_append, run]
      rcases hstep : step env st now e with ⟨st1, effs1⟩
      dsimp only
      simp only [List.append_eq]
      rw [ih st1 (now + 1)]
      have hclock : now + 1 + es.length = now + (e :: es).length := by
        simp
        omega
      rw [hclock]
      simp [List.append_assoc]


/-- Two successive writes to the same key collapse to the second write. -/
lemma tblPut_tblPut {α : Type} (db : List (String × α)) (k : String)
    (a b : α) : tblPut (tblPut db k a) k b = tblPut db k b := by
  induction db with
  | nil => simp [tblPut]
  | cons p rest ih =>
      obtain ⟨k0, v0⟩ := p
      by_cases h : k0 = k
      · simp [tblPut, h]
      · simp [tblPut, h, ih]

/-- The empty request store satisfies the store-wide invariant. -/
lemma AllInv_nil : AllInv ([] : List (String × AccessRequest)) := by
  intro k r h
  simp [tblLookup] at h

/-- The singleton store holding the pending 2-of-3 fixture satisfies the
store-wide invariant. -/
lemma AllInv_raceDb : AllInv raceDb := by
  intro k r h
  unfold raceDb at h
  simp only [tblLookup] at h
  split at h
  · cases h
    refine ⟨by simp [raceRequest], by simp [raceRequest], ?_, ?_, ?_⟩
    · intro e he
      simp [raceRequest] at he
    · intro hco
      simp [raceRequest] at hco
    · intro _
      exact ⟨by decide, by decide⟩
  · cases h

/-- Rewriting `markMessageClicked` when the read finds the record. -/
lemma markMessageClicked_of_lookup (db : List (String × ApprovalMessage))
    (mid uid : String) (m : ApprovalMessage)
    (h : tblLookup db mid = some m) :
    markMessageClicked db mid uid =
      tblPut db mid
        { m with
          status := ("clicked")
          handled_by := some uid } := by
  unfold markMessageClicked
  rw [h]

/-- The message record just marked clicked reads back as clicked. -/
lemma markMessageClicked_lookup (db : List (String × ApprovalMessage))
    (mid uid : String) :
    ∃ m, tblLookup (markMessageClicked db mid uid) mid = some m ∧
      m.status = ("clicked") ∧ m.handled_by = some uid := by
  unfold markMessageClicked
  cases h : tblLookup db mid with
  | some m0 => exact ⟨_, tblLookup_tblPut_self _ _ _, rfl, rfl⟩
  | none => exact ⟨_, tblLookup_tblPut_self _ _ _, rfl, rfl⟩

/-- Marking the same message clicked twice by the same user is a no-op the
second time. -/
lemma markMessageClicked_idem (db : List (String × ApprovalMessage))
    (mid uid : String) :
    markMessageClicked (markMessageClicked db mid uid) mid uid =
      markMessageClicked db mid uid := by
  obtain ⟨m, hm, hms, hmh⟩ := markMessageClicked_lookup db mid uid
  rw [markMessageClicked_of_lookup _ mid uid m hm]
  have hrec :
      { m with
        status := ("clicked")
        handled_by := some uid } = m := by
    cases m
    simp_all
  rw [hrec]
  exact tblPut_lookup_self _ _ _ hm

/-- Resubmitting a response against a request that is already terminal, or
on which the clicker already voted, acknowledges without changing any
state. -/
lemma handle_already (env : Env) (rid mid : String) (r1 : AccessRequest)
    (M1 : List (String × ApprovalMessage)) (now2 : Nat)
    (uid aid val url : String) (em : String)
    (hval : decodeCombined val = some (rid, mid))
    (hem : env.email_of uid = some em)
    (hM : markMessageClicked M1 mid uid = M1)
    (hcase : r1.status ≠ ("pending") ∨ em ∈ r1.approvals_received ∨
      em ∈ r1.denials_received) :
    ∃ ackText,
      handle_approval_response env ⟨[(rid, r1)], M1⟩ now2 uid aid val url =
        some (⟨[(rid, r1)], M1⟩, [Effect.updatePrompt url ackText]) ∧
      (ackText = ("This request has already been " ++ r1.status ++ (".")) ∨
        ackText = ("You\x27ve already responded to this request.")) := by
  unfold handle_approval_response
  simp only [hval, hem]
  simp only [get_access_request_singleton rid r1]
  by_cases hstat : r1.status = ("pending")
  · have hdup : em ∈ r1.approvals_received ∨ em ∈ r1.denials_received := by
      rcases hcase with hco | hd
      · exact absurd hstat hco
      · exact hd
    rw [if_neg (by simp [hstat]), if_pos hdup, hM]
    exact ⟨_, rfl, Or.inr rfl⟩
  · rw [if_pos hstat, hM]
    exact ⟨_, rfl, Or.inl rfl⟩


/-- C2: the claim says the only vote-mutating operation is a single atomic
conditional update against a per-request version counter, failing with
`Conflict` on a version mismatch and never doing an unconditional
read-modify-write.  The code has no version attribute and no condition
expression: `update_request_status` is exactly the read (line 295) followed
by an unconditional write-back (line 316) of a locally rewritten item.  This
theorem evaluates the failing input: two approvers both read the pending
2-of-3 record before either writes; both writes succeed, and the second
write erases the first approver's vote — the final record holds only
`b@x`, `a@x`'s approval is lost, and no conflict is ever reported. -/
theorem C2_unconditional_rmw_lost_update :
    update_request_status raceDb 1 ("r1") ("pending") (some ("a@x"))
        (some ("approve")) =
      (tblPut raceDb ("r1")
        (apply_vote_update raceRequest 1 ("pending") (some ("a@x"))
          (some ("approve"))), true) ∧
    get_access_request raceDb ("r1") = some raceRequest ∧
    update_request_status raceDb 2 ("r1") ("pending") (some ("b@x"))
        (some ("approve")) =
      (tblPut raceDb ("r1")
        (apply_vote_update raceRequest 2 ("pending") (some ("b@x"))
          (some ("approve"))), true) ∧
    get_access_request
        (tblPut
          (tblPut raceDb ("r1")
            (apply_vote_update raceRequest 1 ("pending") (some ("a@x"))
              (some ("approve"))))
          ("r1")
          (apply_vote_update raceRequest 2 ("pending") (some ("b@x"))
            (some ("approve"))))
        ("r1") =
      some { raceRequest with
        status := ("pending")
        updated_at := 2
        approvals_received := [("b@x")] } := by
  refine ⟨?_, ?_, ?_, ?_⟩ <;> decide

/-- C4: the vote aggregator `check_approval_threshold`, on a stored request,
returns `denied` when the denial set is non-empty; otherwise `approved` when
the policy type is `NONE`; otherwise `approved` when the approval count has
reached the requirement; otherwise `pending` — applied in that order. -/
theorem C4_aggregator_order (db : List (String × AccessRequest))
    (request_id : String) (request : AccessRequest)
    (h : get_access_request db request_id = some request) :
    (request.denials_received ≠ [] →
      check_approval_threshold db request_id = ("denied")) ∧
    (request.denials_received = [] → request.approval_type = ("NONE") →
      check_approval_threshold db request_id = ("approved")) ∧
    (request.denials_received = [] → request.approval_type ≠ ("NONE") →
      (request.approvals_received.length : Int) ≥
        request.required_approvals →
      check_approval_threshold db request_id = ("approved")) ∧
    (request.denials_received = [] → request.approval_type ≠ ("NONE") →
      (request.approvals_received.length : Int) <
        request.required_approvals →
      check_approval_threshold db request_id = ("pending")) := by
  unfold check_approval_threshold
  simp only [h]
  refine ⟨?_, ?_, ?_, ?_⟩
  · intro hd
    rw [if_pos hd]
  · intro hd ht
    rw [if_neg (by simp [hd]), if_pos ht]
  · intro hd ht hge
    rw [if_neg (by simp [hd]), if_neg ht, if_pos hge]
  · intro hd ht hlt
    rw [if_neg (by simp [hd]), if_neg ht, if_neg (not_le.mpr hlt)]

/-- Witness for C4 at the concrete pending 2-of-3 fixture: no denial, type
`MANUAL`, zero approvals below the requirement of two, hence `pending`. -/
theorem C4_aggregator_order_witness :
    check_approval_threshold raceDb ("r1") = ("pending") :=
  (C4_aggregator_order raceDb ("r1") raceRequest (by decide)).2.2.2
    (by decide) (by decide) (by decide)

/-- C5 counterexample: the claim says a `MANUAL`/`ALL` policy requires the
size of the approver set — but with an empty approver set the code requires
1, not 0; and the claim says an unrecognized type is treated as threshold 1
— but with threshold 3 the code requires 3. -/
theorem C5_counterexample :
    (required_approvals_calc ("MANUAL") ("ALL") 1 [] = 1 ∧ (1 : Int) ≠ 0) ∧
    (required_approvals_calc ("WEIRD") ("ANY") 3 [] = 3 ∧ (3 : Int) ≠ 1) := by
  refine ⟨⟨?_, ?_⟩, ⟨?_, ?_⟩⟩ <;> decide

/-- C5 amended: for a designated-approver policy (`MANUAL` or `ACCOUNT_ID`)
with logic `ALL` the requirement is the size of the approver set when that
set is non-empty and 1 otherwise (the threshold is ignored); with any other
logic (`ANY`) it is the threshold when positive, else 1; and an unrecognized
policy type falls back to the same threshold-when-positive-else-1 rule with
the policy's own threshold (the event is additionally logged as a warning,
which this model does not observe). -/
theorem C5_required_approvals_amended (t logic : String) (threshold : Int)
    (approver_emails : List String) :
    ((t = ("MANUAL") ∨ t = ("ACCOUNT_ID")) → logic = ("ALL") →
      required_approvals_calc t logic threshold approver_emails =
        (if approver_emails ≠ [] then (approver_emails.length : Int)
          else 1)) ∧
    ((t = ("MANUAL") ∨ t = ("ACCOUNT_ID")) → logic ≠ ("ALL") →
      required_approvals_calc t logic threshold approver_emails =
        (if threshold > 0 then threshold else 1)) ∧
    (t ≠ ("NONE") → t ≠ ("MANAGER") → t ≠ ("BOTH") → t ≠ ("MANUAL") →
      t ≠ ("ACCOUNT_ID") →
      required_approvals_calc t logic threshold approver_emails =
        (if threshold > 0 then threshold else 1)) := by
  refine ⟨?_, ?_, ?_⟩
  · rintro (ht | ht) hl <;> subst ht <;> subst hl <;>
      simp [required_approvals_calc]
  · rintro (ht | ht) hl <;> subst ht <;>
      simp [required_approvals_calc, if_neg hl]
  · intro h1 h2 h3 h4 h5
    unfold required_approvals_calc
    rw [if_neg h1, if_neg h2, if_neg h3,
      if_neg (show ¬(t = ("MANUAL") ∨ t = ("ACCOUNT_ID")) by
        rintro (hh | hh)
        · exact h4 hh
        · exact h5 hh)]

/-- Witness for the amended C5: `MANUAL`/`ALL` with two approvers requires
2, `ACCOUNT_ID`/`ANY` with threshold 0 requires 1, and the unrecognized type
`WEIRD` with threshold 3 requires 3. -/
theorem C5_required_approvals_amended_witness :
    required_approvals_calc ("MANUAL") ("ALL") 5 [("a@x"), ("b@x")] = 2 ∧
    required_approvals_calc ("ACCOUNT_ID") ("ANY") 0 [("a@x")] = 1 ∧
    required_approvals_calc ("WEIRD") ("ANY") 3 [] = 3 := by
  refine ⟨?_, ?_, ?_⟩
  · have h := (C5_required_approvals_amended ("MANUAL") ("ALL") 5
      [("a@x"), ("b@x")]).1 (Or.inl rfl) rfl
    simpa using h
  · have h := (C5_required_approvals_amended ("ACCOUNT_ID") ("ANY") 0
      [("a@x")]).2.1 (Or.inr rfl) (by decide)
    simpa using h
  · have h := (C5_required_approvals_amended ("WEIRD") ("ANY") 3 []).2.2
      (by decide) (by decide) (by decide) (by decide) (by decide)
    simpa using h

/-- C9: a new-request event naming an application/role pair absent from the
catalog reports the not-found error to the requester and leaves the request
store (and everything else) unchanged: no record is created. -/
theorem C9_policy_not_found (env : Env) (st : SysState) (now : Nat)
    (fid : String) (mids : List String) (uid ch app role : String)
    (h : get_role_config env.catalog app role = none) :
    process_new_request env st now fid mids uid ch app role =
      (st,
        [Effect.slackMessage ch
          ("Sorry, I couldn\x27t find the role " ++ role ++ (" for ") ++
            app ++ ("."))],
        none) := by
  unfold process_new_request
  rw [h]

/-- Witness for C9: the scenario catalog has no `nope` role for `aws`; the
store stays empty and the requester is told. -/
theorem C9_policy_not_found_witness :
    process_new_request scenarioEnv ⟨[], []⟩ 0 ("rX") [] ("U1") ("D1")
        ("aws") ("nope") =
      (⟨[], []⟩,
        [Effect.slackMessage ("D1")
          ("Sorry, I couldn\x27t find the role " ++ ("nope") ++ (" for ") ++
            ("aws") ++ ("."))],
        none) :=
  C9_policy_not_found scenarioEnv ⟨[], []⟩ 0 ("rX") [] ("U1") ("D1") ("aws")
    ("nope") (by decide)

/-- C10: joining two colon-free identifiers with a colon and splitting on
the colon recovers exactly the original pair, while a token holding more
than one colon fails to decode into a pair (the Python unpacking raises
`ValueError`). -/
theorem C10_combined_token_codec :
    (∀ request_id approval_message_id : String,
      (':') ∉ request_id.data → (':') ∉ approval_message_id.data →
      decodeCombined (encodeCombined request_id approval_message_id) =
        some (request_id, approval_message_id)) ∧
    (∃ t : String, 2 ≤ t.data.count (':') ∧ decodeCombined t = none) := by
  constructor
  · intro r m hr hm
    rcases r with ⟨rl⟩
    rcases m with ⟨ml⟩
    unfold encodeCombined decodeCombined
    have hdata : ((⟨rl⟩ : String) ++ (":") ++ (⟨ml⟩ : String)).data =
        rl ++ (':') :: ml := by
      show (rl ++ (':') :: List.nil) ++ ml = rl ++ (':') :: ml
      simp
    rw [hdata, pySplitColon_append rl ml hr, pySplitColon_no_colon ml hm]
  · exact ⟨("a:b:c"), by decide, by decide⟩

/-- Witness for C10 at concrete identifiers: `r1` and `m1` round-trip. -/
theorem C10_combined_token_codec_witness :
    decodeCombined (encodeCombined ("r1") ("m1")) =
      some (("r1"), ("m1")) :=
  C10_combined_token_codec.1 ("r1") ("m1") (by decide) (by decide)


/-- Creating a record and immediately finalizing it to `approved` collapses
to one write of the approved record. -/
lemma create_then_approve (db : List (String × AccessRequest)) (now : Nat)
    (fid : String) (rec : AccessRequest) :
    (update_request_status (tblPut db fid rec) now fid ("approved") none
      none).1 =
      tblPut db fid { rec with status := ("approved"), updated_at := now }
    := by
  rw [update_request_status_eq (tblPut db fid rec) now fid ("approved") none
    none rec (by unfold get_access_request; exact tblLookup_tblPut_self _ _ _)]
  rw [apply_vote_update_none]
  exact tblPut_tblPut db fid rec _

/-- C1: a recorded denial forces the final status `denied` — over any event
sequence from an invariant-satisfying store, every stored request with a
non-empty denial set has status `denied`; and concretely, under the 2-of-3
ANY policy of the scenario fixture, the order A approves, B denies,
C approves ends with the request denied (with only A's approval and only
B's denial recorded). -/
theorem C1_denial_forces_denied :
    (∀ (env : Env) (st : SysState) (now : Nat) (evs : List Event),
      (∀ e ∈ evs, isResponseEvent e = true) → AllInv st.requests →
      ∀ rid r, tblLookup (run env st now evs).1.requests rid = some r →
        r.denials_received ≠ [] → r.status = ("denied")) ∧
    (∃ r, tblLookup
        (run scenarioEnv ⟨[], []⟩ 0 scenarioEvents).1.requests ("r1") =
        some r ∧
      r.status = ("denied") ∧ r.approvals_received = [("a@x")] ∧
      r.denials_received = [("b@x")]) := by
  constructor
  · intro env st now evs _ hAll rid r hr
    exact (run_AllInv env st now evs hAll rid r hr).2.2.2.1
  · refine ⟨{ raceRequest with
        status := ("denied")
        approvals_received := [("a@x")]
        denials_received := [("b@x")]
        updated_at := 2 }, by decide, rfl, rfl, rfl⟩

/-- Witness for C1 applied at a concrete store and a single denial event:
the fixture request ends denied. -/
theorem C1_denial_forces_denied_witness :
    ∃ r, tblLookup (run scenarioEnv ⟨raceDb, []⟩ 0
        [Event.approval_response ("UB") ("deny_request") ("r1:m2")
          ("u2")]).1.requests ("r1") = some r ∧ r.status = ("denied") := by
  have hr : tblLookup (run scenarioEnv ⟨raceDb, []⟩ 0
      [Event.approval_response ("UB") ("deny_request") ("r1:m2")
        ("u2")]).1.requests ("r1") =
      some { raceRequest with
        status := ("denied")
        denials_received := [("b@x")] } := by decide
  exact ⟨_, hr,
    C1_denial_forces_denied.1 scenarioEnv ⟨raceDb, []⟩ 0 _ (by decide)
      AllInv_raceDb ("r1") _ hr (by decide)⟩

/-- C3: over any response-only event sequence against a single-request
store, a request starting `pending` fires the terminal outbound effect (the
provisioning trigger or the requester denial notification) exactly once iff
its final status is terminal and never otherwise; a request starting
terminal is left completely unchanged with no terminal effect; and after
any prefix that leaves the request terminal, the remaining events change
nothing and add no terminal effect, so the transition out of `pending`
happens at most once. -/
theorem C3_terminal_effects_exactly_once (env : Env) (rid : String)
    (r : AccessRequest) (msgs : List (String × ApprovalMessage)) (now : Nat)
    (evs : List Event) (hResp : ∀ e ∈ evs, isResponseEvent e = true) :
    (r.status = ("pending") →
      ∃ r' msgs1 effs,
        run env ⟨[(rid, r)], msgs⟩ now evs = (⟨[(rid, r')], msgs1⟩, effs) ∧
        countTerminal effs = (if r'.status = ("pending") then 0 else 1)) ∧
    (r.status ≠ ("pending") →
      ∃ msgs1 effs,
        run env ⟨[(rid, r)], msgs⟩ now evs = (⟨[(rid, r)], msgs1⟩, effs) ∧
        countTerminal effs = 0) ∧
    (∀ evs1 evs2 r1 m1 e1, evs = evs1 ++ evs2 →
      run env ⟨[(rid, r)], msgs⟩ now evs1 = (⟨[(rid, r1)], m1⟩, e1) →
      r1.status ≠ ("pending") →
      ∃ m2 e2,
        run env ⟨[(rid, r)], msgs⟩ now evs = (⟨[(rid, r1)], m2⟩, e1 ++ e2) ∧
        countTerminal e2 = 0) := by
  refine ⟨?_, ?_, ?_⟩
  · intro hp
    obtain ⟨r', m1, effs, heq, _, hpend⟩ :=
      run_single env rid r msgs now evs hResp
    exact ⟨r', m1, effs, heq, hpend hp⟩
  · intro hnp
    obtain ⟨r', m1, effs, heq, hterm, _⟩ :=
      run_single env rid r msgs now evs hResp
    obtain ⟨hr', hc⟩ := hterm hnp
    subst hr'
    exact ⟨m1, effs, heq, hc⟩
  · intro evs1 evs2 r1 m1 e1 hsplit hrun1 hterm1
    subst hsplit
    have hResp2 : ∀ e ∈ evs2, isResponseEvent e = true :=
      fun e he => hResp e (by simp [he])
    obtain ⟨r2, m2, effs2, heq2, hterm2, _⟩ :=
      run_single env rid r1 m1 (now + evs1.length) evs2 hResp2
    obtain ⟨hr2, hc2⟩ := hterm2 hterm1
    subst hr2
    rw [run_append env ⟨[(rid, r)], msgs⟩ now evs1 evs2, hrun1]
    dsimp only
    rw [heq2]
    exact ⟨m2, effs2, rfl, hc2⟩

/-- Witness for C3 at the concrete fixture: one deny event on the pending
2-of-3 request yields exactly one terminal effect. -/
theorem C3_terminal_effects_exactly_once_witness :
    ∃ r' msgs1 effs,
      run scenarioEnv ⟨[(("r1"), raceRequest)], []⟩ 0
          [Event.approval_response ("UB") ("deny_request") ("r1:m2")
            ("u2")] =
        (⟨[(("r1"), r')], msgs1⟩, effs) ∧
      countTerminal effs = (if r'.status = ("pending") then 0 else 1) :=
  (C3_terminal_effects_exactly_once scenarioEnv ("r1") raceRequest [] 0
    [Event.approval_response ("UB") ("deny_request") ("r1:m2") ("u2")]
    (by decide)).1 rfl

/-- C6: a new request whose resolved policy has type `NONE` is persisted
and immediately finalized `approved` with empty vote lists, the provisioning
trigger is the only outbound call (so it fires exactly once and no approval
prompt or ticket is dispatched), and the message table is untouched. -/
theorem C6_none_auto_approved (env : Env) (st : SysState) (now : Nat)
    (fid : String) (mids : List String) (uid ch app role : String)
    (cfg : RoleConfig) (em : String)
    (hcfg : get_role_config env.catalog app role = some cfg)
    (htype : (cfg.approval?.getD ⟨none, none, none, none⟩).type?.getD
      ("MANUAL") = ("NONE"))
    (hem : env.email_of uid = some em) :
    ∃ r,
      process_new_request env st now fid mids uid ch app role =
        (⟨tblPut st.requests fid r, st.messages⟩,
          [Effect.invokeProvisioner fid em cfg.group_id ch], some fid) ∧
      r.status = ("approved") ∧ r.approvals_received = [] ∧
      r.denials_received = [] := by
  unfold process_new_request
  simp only [hcfg, hem]
  rw [if_pos htype]
  unfold create_access_request
  rw [create_then_approve]
  exact ⟨_, rfl, rfl, rfl, rfl⟩

/-- Witness for C6: the `NONE`-policy `aws`/`admin` fixture auto-approves
with one provisioner invocation and no prompts. -/
theorem C6_none_auto_approved_witness :
    ∃ r,
      process_new_request noneEnv ⟨[], []⟩ 0 ("r9") [] ("UR") ("D1") ("aws")
          ("admin") =
        (⟨tblPut [] ("r9") r, []⟩,
          [Effect.invokeProvisioner ("r9") ("r@x") (some ("gid2")) ("D1")],
          some ("r9")) ∧
      r.status = ("approved") ∧ r.approvals_received = [] ∧
      r.denials_received = [] :=
  C6_none_auto_approved noneEnv ⟨[], []⟩ 0 ("r9") [] ("UR") ("D1") ("aws")
    ("admin")
    ⟨("admin"), none, none, some ("gid2"),
      some ⟨some ("NONE"), none, none, none⟩⟩
    ("r@x") (by decide) rfl (by decide)

/-- C7: in every store reachable from the empty store by any sequence of
create and response events, each request's approval and denial sets are
disjoint and duplicate-free. -/
theorem C7_vote_sets_disjoint (env : Env) (now : Nat) (evs : List Event)
    (rid : String) (r : AccessRequest)
    (h : tblLookup (run env ⟨[], []⟩ now evs).1.requests rid = some r) :
    (∀ e, e ∈ r.approvals_received → e ∉ r.denials_received) ∧
    r.approvals_received.Nodup ∧ r.denials_received.Nodup := by
  obtain ⟨h1, h2, h3, _, _⟩ :=
    run_AllInv env ⟨[], []⟩ now evs AllInv_nil rid r h
  exact ⟨h3, h1, h2⟩

/-- Witness for C7 at the full concrete scenario run: the final record's
vote sets are disjoint and duplicate-free. -/
theorem C7_vote_sets_disjoint_witness :
    (∀ e, e ∈ [("a@x")] → e ∉ ([("b@x")] : List String)) ∧
    ([("a@x")] : List String).Nodup ∧ ([("b@x")] : List String).Nodup := by
  have hr : tblLookup
      (run scenarioEnv ⟨[], []⟩ 0 scenarioEvents).1.requests ("r1") =
      some { raceRequest with
        status := ("denied")
        approvals_received := [("a@x")]
        denials_received := [("b@x")]
        updated_at := 2 } := by decide
  exact C7_vote_sets_disjoint scenarioEnv 0 scenarioEvents ("r1") _ hr


/-- C8: submitting the same (ticket, decision) response twice in sequence —
same clicker, same combined token, same decision — leaves the entire state
untouched the second time and yields exactly one already-handled
acknowledgment: either the terminal-status notice or the already-responded
notice.  The ticket record is `clicked` after the first submission and
unchanged by the second, so its status leaves `pending` at most once, and
the second response is rejected rather than reprocessed (in particular the
approval and denial sets keep their sizes). -/
theorem C8_resubmission_idempotent (env : Env) (rid mid : String)
    (r : AccessRequest) (msgs : List (String × ApprovalMessage))
    (now now2 : Nat) (uid aid val url em : String)
    (hval : decodeCombined val = some (rid, mid))
    (hem : env.email_of uid = some em)
    (hstat : r.status = ("pending"))
    (hemA : em ∉ r.approvals_received) (hemD : em ∉ r.denials_received)
    (haid : aid = ("approve_request") ∨ aid = ("deny_request")) :
    ∃ r1 effs1,
      handle_approval_response env ⟨[(rid, r)], msgs⟩ now uid aid val url =
        some (⟨[(rid, r1)], markMessageClicked msgs mid uid⟩, effs1) ∧
      (∃ m1, tblLookup (markMessageClicked msgs mid uid) mid = some m1 ∧
        m1.status = ("clicked") ∧ m1.handled_by = some uid) ∧
      (∃ ackText,
        handle_approval_response env
            ⟨[(rid, r1)], markMessageClicked msgs mid uid⟩ now2 uid aid val
            url =
          some (⟨[(rid, r1)], markMessageClicked msgs mid uid⟩,
            [Effect.updatePrompt url ackText]) ∧
        (ackText =
            ("This request has already been " ++ r1.status ++ (".")) ∨
          ackText = ("You\x27ve already responded to this request."))) := by
  have hdup : ¬(em ∈ r.approvals_received ∨ em ∈ r.denials_received) := by
    rintro (hco | hco)
    · exact hemA hco
    · exact hemD hco
  have hM := markMessageClicked_idem msgs mid uid
  rcases haid with ha | ha
  · subst ha
    by_cases hthr : check_approval_threshold
        [(rid, { r with
          status := ("pending")
          updated_at := now
          approvals_received := r.approvals_received ++ [em] })] rid =
        ("approved")
    · obtain ⟨effs1, h1⟩ : ∃ effs1,
          handle_approval_response env ⟨[(rid, r)], msgs⟩ now uid
              ("approve_request") val url =
            some (⟨[(rid, { r with
                status := ("approved")
                updated_at := now
                approvals_received := r.approvals_received ++ [em] })],
              markMessageClicked msgs mid uid⟩, effs1) := ⟨_, by
        unfold handle_approval_response
        simp only [hval, hem, get_access_request_singleton rid r]
        rw [if_neg (by simp [hstat]), if_neg hdup,
          if_neg (by decide :
            ¬("approve_request" : String) = ("deny_request")),
          if_pos (trivial : True)]
        rw [update_request_status_eq [(rid, r)] now rid ("pending")
          (some em) (some ("approve")) r (get_access_request_singleton rid r)]
        rw [apply_vote_update_approve r now ("pending") em hemA]
        rw [tblPut_singleton]
        rw [if_pos hthr]
        rw [update_request_status_eq _ now rid ("approved") none none _
          (get_access_request_singleton rid _)]
        rw [apply_vote_update_none]
        rw [tblPut_singleton]⟩
      exact ⟨_, effs1, h1, markMessageClicked_lookup msgs mid uid,
        handle_already env rid mid _ _ now2 uid ("approve_request") val url
          em hval hem hM (Or.inl (by simp))⟩
    · obtain ⟨effs1, h1⟩ : ∃ effs1,
          handle_approval_response env ⟨[(rid, r)], msgs⟩ now uid
              ("approve_request") val url =
            some (⟨[(rid, { r with
                status := ("pending")
                updated_at := now
                approvals_received := r.approvals_received ++ [em] })],
              markMessageClicked msgs mid uid⟩, effs1) := ⟨_, by
        unfold handle_approval_response
        simp only [hval, hem, get_access_request_singleton rid r]
        rw [if_neg (by simp [hstat]), if_neg hdup,
          if_neg (by decide :
            ¬("approve_request" : String) = ("deny_request")),
          if_pos (trivial : True)]
        rw [update_request_status_eq [(rid, r)] now rid ("pending")
          (some em) (some ("approve")) r (get_access_request_singleton rid r)]
        rw [apply_vote_update_approve r now ("pending") em hemA]
        rw [tblPut_singleton]
        rw [if_neg hthr]⟩
      exact ⟨_, effs1, h1, markMessageClicked_lookup msgs mid uid,
        handle_already env rid mid _ _ now2 uid ("approve_request") val url
          em hval hem hM (Or.inr (Or.inl (by simp)))⟩
  · subst ha
    obtain ⟨effs1, h1⟩ : ∃ effs1,
        handle_approval_response env ⟨[(rid, r)], msgs⟩ now uid
            ("deny_request") val url =
          some (⟨[(rid, { r with
              status := ("denied")
              updated_at := now
              denials_received := r.denials_received ++ [em] })],
            markMessageClicked msgs mid uid⟩, effs1) := ⟨_, by
      unfold handle_approval_response
      simp only [hval, hem, get_access_request_singleton rid r]
      rw [if_neg (by simp [hstat]), if_neg hdup,
        if_pos (trivial : True)]
      rw [update_request_status_eq [(rid, r)] now rid ("denied")
        (some em) (some ("deny")) r (get_access_request_singleton rid r)]
      rw [apply_vote_update_deny r now ("denied") em hemD]
      rw [tblPut_singleton]⟩
    exact ⟨_, effs1, h1, markMessageClicked_lookup msgs mid uid,
      handle_already env rid mid _ _ now2 uid ("deny_request") val url em
        hval hem hM (Or.inl (by simp))⟩

/-- Witness for C8: approver B resubmits the same deny against the fixture
request; the second submission changes nothing and is acknowledged as
already handled. -/
theorem C8_resubmission_idempotent_witness :
    ∃ r1 effs1,
      handle_approval_response scenarioEnv ⟨[(("r1"), raceRequest)], []⟩ 0
          ("UB") ("deny_request") ("r1:m2") ("u2") =
        some (⟨[(("r1"), r1)], markMessageClicked [] ("m2") ("UB")⟩,
          effs1) ∧
      (∃ m1, tblLookup (markMessageClicked [] ("m2") ("UB")) ("m2") =
        some m1 ∧ m1.status = ("clicked") ∧ m1.handled_by = some ("UB")) ∧
      (∃ ackText,
        handle_approval_response scenarioEnv
            ⟨[(("r1"), r1)], markMessageClicked [] ("m2") ("UB")⟩ 1 ("UB")
            ("deny_request") ("r1:m2") ("u2") =
          some (⟨[(("r1"), r1)], markMessageClicked [] ("m2") ("UB")⟩,
            [Effect.updatePrompt ("u2") ackText]) ∧
        (ackText =
            ("This request has already been " ++ r1.status ++ (".")) ∨
          ackText = ("You\x27ve already responded to this request."))) :=
  C8_resubmission_idempotent scenarioEnv ("r1") ("m2") raceRequest [] 0 1
    ("UB") ("deny_request") ("r1:m2") ("u2") ("b@x") (by decide) (by decide)
    rfl (by decide) (by decide) (Or.inr rfl)

end Hagrid
